import Mathlib

/-!
Verification development for the route-to-frame sampling pipeline and the
image cache of the `video_view_driving_direction` repository.

The embedding follows `src/services/googleMaps.ts` and
`src/services/imageCache.ts`, with JavaScript numbers idealised as real
numbers (`ℝ`) for the geodesic code and as `ℕ`/`ℤ`/`ℚ` for the byte-count,
timestamp and percentage arithmetic of the cache (where every value that
occurs is exactly representable, so the idealisation is exact).

Conventions used by the embedding:
* `google.maps.LatLng` accessor objects and the optional `address` field of
  `Location` are collapsed into a plain `lat`/`lng` record: the sampler only
  ever reads `lat()`/`lng()` and rebuilds fresh `{lat, lng}` literals.
* In `interpolateRoutePoints` the guard `points[points.length - 1] !== lastPoint`
  compares two freshly allocated objects by reference and is therefore always
  true, so the final path point is always pushed; the embedding pushes it
  unconditionally.
* `Math.round x` (round half toward positive infinity) is `⌊x + 1/2⌋`, and the
  string key `a ++ "," ++ b` built from two integers is in bijection with the
  pair `(a, b)`, so the deduplication key is modelled as a pair of integers.
* Asynchronous effects are modelled by explicit state passing: the network is
  a function `String → Option Blob` (`none` covering both a rejected fetch and
  a non-ok HTTP status, which the `catch` converts to `null`), the IndexedDB
  object store is a list of entries, and `Date.now()` is an explicit argument.
  `URL.createObjectURL` is an arbitrary function of the blob.  `cacheImage` is
  additionally instrumented with the number of network fetches it performs,
  mirroring the fetch-call counter of the specification's test double.
-/

namespace VideoView

/-- JavaScript `Math.atan2 y x` (two-argument arctangent). -/
noncomputable def jsAtan2 (y x : ℝ) : ℝ :=
  if 0 < x then Real.arctan (y / x)
  else if x < 0 then
    (if 0 ≤ y then Real.arctan (y / x) + Real.pi else Real.arctan (y / x) - Real.pi)
  else
    (if 0 < y then Real.pi / 2 else if y < 0 then -(Real.pi / 2) else 0)

/-- JavaScript remainder `a % b` (truncated division, sign of the dividend). -/
noncomputable def jsRem (a b : ℝ) : ℝ :=
  a - b * (if 0 ≤ a / b then ((⌊a / b⌋ : ℤ) : ℝ) else ((⌈a / b⌉ : ℤ) : ℝ))

/-- Coordinate record (`Location` of `types.ts`, with the unused optional
`address` field and the `google.maps.LatLng` accessor wrapper collapsed). -/
structure Location where
  lat : ℝ
  lng : ℝ

/-- One turn-by-turn step (`RouteStep` of `types.ts`; the optional per-step
`path`, unused by the sampling pipeline, is omitted). -/
structure RouteStep where
  location : Location
  instruction : String
  distance : ℝ
  duration : ℝ

/-- A computed route (`Route` of `types.ts`).  An absent (`undefined`)
`encodedPath` behaves exactly like an empty one in
`interpolateRoutePoints`, so both are modelled as `[]`. -/
structure Route where
  start : Location
  «end» : Location
  steps : List RouteStep
  totalDistance : ℝ
  totalDuration : ℝ
  encodedPath : List Location

/-- The four turn directions produced by `extractTurnDirection`. -/
inductive TurnDirection where
  | left
  | right
  | straight
  | uturn
deriving DecidableEq

/-- One playable frame (`StreetViewFrame` of `types.ts`; the optional
`panoramaId`, never set by the frame builder, is omitted).  Optional fields
are `Option`s; `generateStreetViewFrames` leaves `isCached` unset (`none`). -/
structure StreetViewFrame where
  location : Location
  heading : ℝ
  pitch : ℝ
  imageUrl : String
  timestamp : ℕ
  isCached : Option Bool
  isNearTurn : Bool
  turnDirection : Option TurnDirection
  turnInstruction : Option String

/-- `haystack.includes needle` on lists of characters (JavaScript
`String.prototype.includes`: true iff `needle` occurs contiguously). -/
def listIncludes (hay needle : List Char) : Bool :=
  match hay with
  | [] => needle.isEmpty
  | _ :: tl => needle.isPrefixOf hay || listIncludes tl needle

/-- JavaScript `s.includes sub` on strings. -/
def strIncludes (s sub : String) : Bool :=
  listIncludes s.data sub.data

/-- JavaScript `s.toLowerCase()` (characterwise ASCII case mapping; same
mapping as `String.toLower`, stated over the character list so that it
evaluates by reduction). -/
def strToLower (s : String) : String :=
  ⟨s.data.map Char.toLower⟩

/-- `GoogleMapsService.calculateDistance`: haversine great-circle distance in
metres with Earth radius 6,371,000 m. -/
noncomputable def calculateDistance (point1 point2 : Location) : ℝ :=
  let R : ℝ := 6371000
  let dLat := (point2.lat - point1.lat) * Real.pi / 180
  let dLng := (point2.lng - point1.lng) * Real.pi / 180
  let a := Real.sin (dLat / 2) * Real.sin (dLat / 2) +
    Real.cos (point1.lat * Real.pi / 180) * Real.cos (point2.lat * Real.pi / 180) *
    Real.sin (dLng / 2) * Real.sin (dLng / 2)
  let c := 2 * jsAtan2 (Real.sqrt a) (Real.sqrt (1 - a))
  R * c

/-- `GoogleMapsService.calculateHeading`: initial bearing in degrees,
normalised to `[0, 360)` by `(heading + 360) % 360`. -/
noncomputable def calculateHeading (fromLoc toLoc : Location) : ℝ :=
  let dLng := (toLoc.lng - fromLoc.lng) * Real.pi / 180
  let fromLatRad := fromLoc.lat * Real.pi / 180
  let toLatRad := toLoc.lat * Real.pi / 180
  let y := Real.sin dLng * Real.cos toLatRad
  let x := Real.cos fromLatRad * Real.sin toLatRad -
    Real.sin fromLatRad * Real.cos toLatRad * Real.cos dLng
  let heading := jsAtan2 y x * 180 / Real.pi
  jsRem (heading + 360) 360

/-- `GoogleMapsService.isStepATurn`: keyword heuristic over the lower-cased
instruction text. -/
def isStepATurn (instruction : String) : Bool :=
  let turnKeywords := ["turn", "left", "right", "exit", "ramp", "merge", "fork"]
  let lowerInstruction := strToLower instruction
  turnKeywords.any (fun keyword => strIncludes lowerInstruction keyword)

/-- `GoogleMapsService.extractTurnDirection`: priority-ordered keyword match. -/
def extractTurnDirection (instruction : String) : TurnDirection :=
  let lowerInstruction := strToLower instruction
  if strIncludes lowerInstruction "u-turn" || strIncludes lowerInstruction "make a u-turn" then
    TurnDirection.uturn
  else if strIncludes lowerInstruction "turn left" || strIncludes lowerInstruction "left onto" then
    TurnDirection.left
  else if strIncludes lowerInstruction "turn right" || strIncludes lowerInstruction "right onto" then
    TurnDirection.right
  else if strIncludes lowerInstruction "continue" || strIncludes lowerInstruction "straight" then
    TurnDirection.straight
  else if strIncludes lowerInstruction "left" then
    TurnDirection.left
  else if strIncludes lowerInstruction "right" then
    TurnDirection.right
  else
    TurnDirection.straight

/-- `GoogleMapsService.isNearTurnInstruction`: true iff some step whose
instruction is a turn lies within 30 m of the point. -/
noncomputable def isNearTurnInstruction (point : Location) (steps : List RouteStep) : Bool :=
  steps.any (fun step =>
    isStepATurn step.instruction && decide (calculateDistance point step.location ≤ 30))

/-- Turn metadata attached to a frame by `getTurnInformation`. -/
structure TurnInfo where
  isNearTurn : Bool
  direction : Option TurnDirection
  instruction : Option String

/-- `GoogleMapsService.getTurnInformation`: the first step (in step order)
whose instruction is a turn and whose location is within 30 m wins. -/
noncomputable def getTurnInformation (point : Location) (steps : List RouteStep) : TurnInfo :=
  match steps.find? (fun step =>
      isStepATurn step.instruction && decide (calculateDistance point step.location ≤ 30)) with
  | some step =>
      ⟨true, some (extractTurnDirection step.instruction), some step.instruction⟩
  | none => ⟨false, none, none⟩

/-- The `for` loop of `interpolateRoutePoints`: walk consecutive path points
accumulating distance, emitting the current point and resetting the
accumulator whenever the accumulated distance reaches the interval in effect
(dense `intervalMeters / 100` near a turn, sparse `intervalMeters * 5`
otherwise). -/
noncomputable def interpolateLoop (steps : List RouteStep) (intervalMeters : ℝ)
    (prevPoint : Location) (rest : List Location) (accumulatedDistance : ℝ) : List Location :=
  match rest with
  | [] => []
  | currentPoint :: tl =>
    let segmentDistance := calculateDistance prevPoint currentPoint
    let acc := accumulatedDistance + segmentDistance
    let nearTurn := isNearTurnInstruction currentPoint steps
    let currentInterval := if nearTurn then intervalMeters / 100 else intervalMeters * 5
    if currentInterval ≤ acc then
      currentPoint :: interpolateLoop steps intervalMeters currentPoint tl 0
    else
      interpolateLoop steps intervalMeters currentPoint tl acc

/-- `GoogleMapsService.interpolateRoutePoints`: first path point, then the
accumulating walk, then (unconditionally, see the header comment) the final
path point. -/
noncomputable def interpolateRoutePoints (route : Route) (intervalMeters : ℝ) : List Location :=
  match route.encodedPath with
  | [] => []
  | firstPoint :: rest =>
    (firstPoint :: interpolateLoop route.steps intervalMeters firstPoint rest 0) ++
      [(firstPoint :: rest).getLast (List.cons_ne_nil _ _)]

/-- The deduplication key of `generateStreetViewFrames`:
`Math.round(lat * 10000) ++ "," ++ Math.round(lng * 10000)`, modelled as the
(equivalent) pair of rounded integers. -/
noncomputable def locationKey (p : Location) : ℤ × ℤ :=
  (⌊p.lat * 10000 + 1 / 2⌋, ⌊p.lng * 10000 + 1 / 2⌋)

/-- `GoogleMapsService.getStreetViewImage`: deterministic Street View Static
API URL for a location and heading (`numToString` abstracts JavaScript number
formatting). -/
def getStreetViewImage (numToString : ℝ → String) (apiKey : String)
    (location : Location) (heading : ℝ) : String :=
  "https://maps.googleapis.com/maps/api/streetview?size=640x640&location=" ++
    numToString location.lat ++ "," ++ numToString location.lng ++
    "&heading=" ++ numToString heading ++ "&pitch=0&fov=90&key=" ++ apiKey

/-- The `for` loop of `generateStreetViewFrames`: build a frame per sampled
point (heading toward the successor point, `0` for the last), skipping any
point whose quantised location key was already emitted.  `i` is the loop
index, stored as the frame's `timestamp`; `seen` is the `seenLocations` set.
`getStreetViewImage` always succeeds, so the `try`/`catch` never skips. -/
noncomputable def framesLoop (numToString : ℝ → String) (apiKey : String)
    (steps : List RouteStep) (seen : List (ℤ × ℤ)) (i : ℕ) :
    List Location → List StreetViewFrame
  | [] => []
  | point :: rest =>
    let heading := match rest with
      | [] => 0
      | nextPoint :: _ => calculateHeading point nextPoint
    let imageUrl := getStreetViewImage numToString apiKey point heading
    let key := locationKey point
    if key ∈ seen then
      framesLoop numToString apiKey steps seen (i + 1) rest
    else
      let turnInfo := getTurnInformation point steps
      { location := point
        heading := heading
        pitch := 0
        imageUrl := imageUrl
        timestamp := i
        isCached := none
        isNearTurn := turnInfo.isNearTurn
        turnDirection := turnInfo.direction
        turnInstruction := turnInfo.instruction } ::
        framesLoop numToString apiKey steps (key :: seen) (i + 1) rest

/-- `GoogleMapsService.generateStreetViewFrames`: sample the route, then build
deduplicated frames. -/
noncomputable def generateStreetViewFrames (numToString : ℝ → String) (apiKey : String)
    (route : Route) (intervalMeters : ℝ) : List StreetViewFrame :=
  framesLoop numToString apiKey route.steps [] 0 (interpolateRoutePoints route intervalMeters)

/-! ## The image cache (`src/services/imageCache.ts`) -/

/-- An image payload; only its byte count is ever inspected by the cache. -/
structure Blob where
  size : ℕ
deriving DecidableEq

/-- `CacheEntry` of `imageCache.ts` (the IndexedDB record; `size` is set to
`blob.size` at creation). -/
structure CacheEntry where
  url : String
  blob : Blob
  timestamp : ℤ
  size : ℕ
deriving DecidableEq

/-- The IndexedDB object store, keyed by `url` (`keyPath: 'url'`). -/
abbrev CacheState := List CacheEntry

/-- `maxCacheSize = 500 * 1024 * 1024` (500 MB). -/
def maxCacheSize : ℕ := 500 * 1024 * 1024

/-- `maxAge = 7 * 24 * 60 * 60 * 1000` (7 days in milliseconds). -/
def maxAge : ℤ := 7 * 24 * 60 * 60 * 1000

/-- The eviction stop threshold `maxCacheSize * 0.8` of `cleanupCache`.  The
product is not an integer double, but the sizes compared against it are
integers, so `size ≤ maxCacheSize * 0.8` is exactly `size ≤ 419430400`, which
is `maxCacheSize * 4 / 5` in exact arithmetic. -/
def cleanupThreshold : ℕ := maxCacheSize * 4 / 5

/-- IndexedDB `store.get url`: the entry stored under the key, if any. -/
def findEntry (st : CacheState) (url : String) : Option CacheEntry :=
  st.find? (fun e => e.url == url)

/-- `ImageCacheService.deleteEntry`: IndexedDB `store.delete url`. -/
def deleteEntry (st : CacheState) (url : String) : CacheState :=
  st.filter (fun e => !(e.url == url))

/-- `ImageCacheService.storeEntry`: IndexedDB `store.put entry` — replaces the
entry under the same key, or inserts.  (IndexedDB keeps records in key order;
that order is only consulted as the tie-break of the timestamp sort in
`cleanupCache`, on which nothing proved here depends, so insertion is
modelled as an append.) -/
def storeEntry (st : CacheState) (entry : CacheEntry) : CacheState :=
  if st.any (fun e => e.url == entry.url) then
    st.map (fun e => if e.url == entry.url then entry else e)
  else
    st ++ [entry]

/-- The summed `size` of all stored entries, as in `cleanupCache`. -/
def totalSize (st : CacheState) : ℕ :=
  (st.map (fun e => e.size)).sum

/-- `ImageCacheService.getCachedImage`: look the url up; an entry older than
`maxAge` is deleted lazily and treated as absent; a fresh entry yields a blob
URL for its payload. -/
def getCachedImage (objectUrl : Blob → String) (now : ℤ) (st : CacheState)
    (url : String) : Option String × CacheState :=
  match findEntry st url with
  | none => (none, st)
  | some entry =>
    if maxAge < now - entry.timestamp then (none, deleteEntry st url)
    else (some (objectUrl entry.blob), st)

/-- Timestamp comparison used to sort entries oldest-first in `cleanupCache`
(JavaScript comparator `a.timestamp - b.timestamp`). -/
def entryLE (a b : CacheEntry) : Prop := a.timestamp ≤ b.timestamp

instance : DecidableRel entryLE := fun a b => Int.decLe a.timestamp b.timestamp

instance : IsTotal CacheEntry entryLE := ⟨fun a b => Int.le_total a.timestamp b.timestamp⟩

instance : IsTrans CacheEntry entryLE := ⟨fun _ _ _ h1 h2 => le_trans h1 h2⟩

/-- The deletion loop of `cleanupCache`: walk the entries oldest-first,
deleting until the running size is at most the threshold. -/
def evictLoop : CacheState → List CacheEntry → ℕ → CacheState
  | st, [], _ => st
  | st, entry :: rest, currentSize =>
    if currentSize ≤ cleanupThreshold then st
    else evictLoop (deleteEntry st entry.url) rest (currentSize - entry.size)

/-- `ImageCacheService.cleanupCache`: if the summed entry sizes exceed the
budget, delete entries oldest-timestamp-first until at most 80% of the budget
remains.  (`List.insertionSort` is a stable sort, as required of JavaScript
`Array.prototype.sort`.) -/
def cleanupCache (st : CacheState) : CacheState :=
  let totalSz := totalSize st
  if maxCacheSize < totalSz then
    evictLoop st (List.insertionSort entryLE st) totalSz
  else st

/-- `ImageCacheService.cacheImage` (the spec's `fetchAndCache`): cache hit, or
fetch-store-cleanup, or `null` on fetch failure.  The final `ℕ` counts the
network fetches performed (0 or 1), for the fetch-counter properties. -/
def cacheImage (objectUrl : Blob → String) (net : String → Option Blob) (now : ℤ)
    (st : CacheState) (url : String) : Option String × CacheState × ℕ :=
  match getCachedImage objectUrl now st url with
  | (some existing, st1) => (some existing, st1, 0)
  | (none, st1) =>
    match net url with
    | none => (none, st1, 1)
    | some blob =>
      let entry : CacheEntry := ⟨url, blob, now, blob.size⟩
      let st2 := storeEntry st1 entry
      let st3 := cleanupCache st2
      (some (objectUrl blob), st3, 1)

/-- `CacheProgress` of `imageCache.ts` (percentages kept exact in `ℚ`). -/
structure CacheProgress where
  total : ℕ
  cached : ℕ
  failed : ℕ
  percentage : ℚ
deriving DecidableEq

/-- The per-url body of `cacheImages`, sequentialised: JavaScript's
single-threaded event loop makes each completion's counter increment and
`updateProgress()` call atomic, so the cumulative counts any interleaving
reports are those of a sequential execution.  Returns the final state, the
`results` map (as an association list), and the list of emitted progress
snapshots in order. -/
def cacheImagesLoop (objectUrl : Blob → String) (net : String → Option Blob) (now : ℤ)
    (total : ℕ) :
    CacheState → ℕ → ℕ → List String →
      CacheState × List (String × String) × List CacheProgress
  | st, _, _, [] => (st, [], [])
  | st, cached, failed, url :: rest =>
    match cacheImage objectUrl net now st url with
    | (some cachedUrl, st1, _) =>
      let progress : CacheProgress :=
        ⟨total, cached + 1, failed, (((cached + 1) + failed : ℕ) : ℚ) / total * 100⟩
      let r := cacheImagesLoop objectUrl net now total st1 (cached + 1) failed rest
      (r.1, (url, cachedUrl) :: r.2.1, progress :: r.2.2)
    | (none, st1, _) =>
      let progress : CacheProgress :=
        ⟨total, cached, failed + 1, ((cached + (failed + 1) : ℕ) : ℚ) / total * 100⟩
      let r := cacheImagesLoop objectUrl net now total st1 cached (failed + 1) rest
      (r.1, r.2.1, progress :: r.2.2)

/-- `ImageCacheService.cacheImages` (the spec's `fetchBatch`): cache every
url, reporting progress after each completion.  The batches of 5 and the
10 ms pause only schedule work; they do not change the counts any report can
observe (see `cacheImagesLoop`). -/
def cacheImages (objectUrl : Blob → String) (net : String → Option Blob) (now : ℤ)
    (st : CacheState) (urls : List String) :
    CacheState × List (String × String) × List CacheProgress :=
  cacheImagesLoop objectUrl net now urls.length st 0 0 urls

/-- JavaScript `Map.get` over the association-list model of `results`. -/
def lookupResult (results : List (String × String)) (key : String) : Option String :=
  (results.find? (fun p => p.1 == key)).map (fun p => p.2)

/-- `GoogleMapsService.generateStreetViewFramesWithCache`: generate frames,
cache their image urls, and rewrite each frame's `imageUrl` to the cached
handle when one exists (`cachedUrls.get(u) || u`, so an empty-string handle
falls back) and set `isCached`.  Returns the frames together with the final
cache state and the progress reports. -/
noncomputable def generateStreetViewFramesWithCache (numToString : ℝ → String)
    (apiKey : String) (objectUrl : Blob → String) (net : String → Option Blob)
    (now : ℤ) (st : CacheState) (route : Route) (intervalMeters : ℝ) :
    List StreetViewFrame × CacheState × List CacheProgress :=
  let frames := generateStreetViewFrames numToString apiKey route intervalMeters
  if frames.length = 0 then (frames, st, [])
  else
    let imageUrls := frames.map (fun frame => frame.imageUrl)
    let r := cacheImages objectUrl net now st imageUrls
    let cachedUrls := r.2.1
    let updatedFrames := frames.map (fun frame =>
      { frame with
        imageUrl := match lookupResult cachedUrls frame.imageUrl with
          | some c => if c = "" then frame.imageUrl else c
          | none => frame.imageUrl
        isCached := some (lookupResult cachedUrls frame.imageUrl).isSome })
    (updatedFrames, r.1, r.2.2)

/-! ## Helper lemmas -/

/-- Storing an entry makes it retrievable under its url (in the replace case
as well as in the insert case). -/
lemma findEntry_replace (st : CacheState) (entry : CacheEntry)
    (h : st.any (fun e => e.url == entry.url) = true) :
    findEntry (st.map (fun e => if e.url == entry.url then entry else e)) entry.url =
      some entry := by
  induction st with
  | nil => simp at h
  | cons x tl ih =>
    by_cases hx : (x.url == entry.url) = true
    · simp only [List.map_cons, if_pos hx, findEntry]
      rw [List.find?_cons_of_pos _ (by simp)]
    · have htl : tl.any (fun e => e.url == entry.url) = true := by
        simpa [hx] using h
      simp only [List.map_cons, findEntry] at *
      rw [List.find?_cons_of_neg, ih htl]
      simp [hx]

/-- Appending a fresh entry makes it retrievable under its url. -/
lemma findEntry_append (st : CacheState) (entry : CacheEntry)
    (h : st.any (fun e => e.url == entry.url) = false) :
    findEntry (st ++ [entry]) entry.url = some entry := by
  induction st with
  | nil => simp [findEntry]
  | cons x tl ih =>
    have hx : (x.url == entry.url) = false := by
      by_contra hc
      simp only [Bool.not_eq_false] at hc
      simp [hc] at h
    have htl : tl.any (fun e => e.url == entry.url) = false := by
      simpa [hx] using h
    simp only [List.cons_append, findEntry] at *
    rw [List.find?_cons_of_neg, ih htl]
    simp [hx]

/-- After `storeEntry st entry`, the key `entry.url` maps to `entry`. -/
lemma findEntry_storeEntry (st : CacheState) (entry : CacheEntry) :
    findEntry (storeEntry st entry) entry.url = some entry := by
  unfold storeEntry
  by_cases h : st.any (fun e => e.url == entry.url) = true
  · rw [if_pos h]
    exact findEntry_replace st entry h
  · rw [if_neg h]
    exact findEntry_append st entry (by simpa using h)

/-- The object store holds at most one entry per key; this is IndexedDB's
`keyPath` invariant, available to every state reached through the public
operations. -/
def UrlNodup (st : CacheState) : Prop :=
  st.Pairwise (fun a b => a.url ≠ b.url)

instance : DecidablePred UrlNodup := fun st =>
  List.instDecidablePairwise st

/-- The eviction loop only ever deletes entries. -/
lemma evictLoop_subset :
    ∀ (sorted : List CacheEntry) (st : CacheState) (cur : ℕ),
      ∀ e ∈ evictLoop st sorted cur, e ∈ st := by
  intro sorted
  induction sorted with
  | nil => intro st cur e he; simpa [evictLoop] using he
  | cons x rest ih =>
    intro st cur e he
    rw [evictLoop] at he
    by_cases hc : cur ≤ cleanupThreshold
    · rwa [if_pos hc] at he
    · rw [if_neg hc] at he
      have := ih _ _ e he
      exact List.mem_of_mem_filter this

/-- Under the one-entry-per-key invariant, deleting by an entry's url removes
exactly that entry. -/
lemma deleteEntry_eq_erase (st : CacheState) (entry : CacheEntry)
    (hnd : UrlNodup st) (he : entry ∈ st) :
    deleteEntry st entry.url = st.erase entry := by
  induction st with
  | nil => simp at he
  | cons x tl ih =>
    rw [UrlNodup, List.pairwise_cons] at hnd
    by_cases hx : x.url = entry.url
    · have hxe : x = entry := by
        rcases List.mem_cons.mp he with h | h
        · exact h.symm
        · exact absurd hx (hnd.1 entry h)
      subst hxe
      rw [List.erase_cons_head]
      simp only [deleteEntry, List.filter_cons]
      rw [if_neg (by simp)]
      exact List.filter_eq_self.mpr (fun b hb => by simp [Ne.symm (hnd.1 b hb)])
    · have hne : entry ≠ x := fun hcx => hx (hcx ▸ rfl)
      have het : entry ∈ tl := by
        rcases List.mem_cons.mp he with h | h
        · exact absurd h.symm hne.symm
        · exact h
      rw [List.erase_cons_tail (by simpa using hne.symm)]
      simp only [deleteEntry, List.filter_cons]
      rw [if_pos (by simp [hx])]
      rw [← ih hnd.2 het]
      rfl

/-- Erasing a member decreases the summed size by exactly its size. -/
lemma totalSize_erase (st : CacheState) (entry : CacheEntry) (he : entry ∈ st) :
    totalSize (st.erase entry) = totalSize st - entry.size := by
  have hperm : st.Perm (entry :: st.erase entry) := List.perm_cons_erase he
  have : totalSize st = entry.size + totalSize (st.erase entry) := by
    unfold totalSize
    rw [(hperm.map (fun e => e.size)).sum_eq]
    simp
  omega

/-- Erasing preserves the one-entry-per-key invariant. -/
lemma urlNodup_erase (st : CacheState) (entry : CacheEntry) (hnd : UrlNodup st) :
    UrlNodup (st.erase entry) :=
  hnd.sublist (List.erase_sublist entry st)

/-- After the eviction loop, run with its own running total, the summed size
is at most the stop threshold. -/
lemma evictLoop_totalSize :
    ∀ (sorted : List CacheEntry) (st : CacheState) (cur : ℕ),
      UrlNodup st → sorted.Perm st → cur = totalSize st →
      totalSize (evictLoop st sorted cur) ≤ cleanupThreshold := by
  intro sorted
  induction sorted with
  | nil =>
    intro st cur _ hperm _
    have : st = [] := hperm.symm.eq_nil
    subst this
    simp [evictLoop, totalSize]
  | cons x rest ih =>
    intro st cur hnd hperm hcur
    rw [evictLoop]
    by_cases hc : cur ≤ cleanupThreshold
    · rwa [if_pos hc, ← hcur]
    · rw [if_neg hc]
      have hx : x ∈ st := hperm.subset (List.mem_cons_self x rest)
      have hrest : rest.Perm (st.erase x) :=
        (List.cons_perm_iff_perm_erase.mp hperm).2
      rw [deleteEntry_eq_erase st x hnd hx]
      exact ih (st.erase x) (cur - x.size) (urlNodup_erase st x hnd) hrest
        (by rw [hcur, totalSize_erase st x hx])

/-- Any entry the eviction loop deletes is no newer than any entry it
retains (the loop walks the entries sorted oldest-first). -/
lemma evictLoop_oldest_first :
    ∀ (sorted : List CacheEntry) (st : CacheState) (cur : ℕ),
      List.Sorted entryLE sorted → UrlNodup st → sorted.Perm st →
      ∀ d ∈ st, d ∉ evictLoop st sorted cur →
        ∀ e ∈ evictLoop st sorted cur, d.timestamp ≤ e.timestamp := by
  intro sorted
  induction sorted with
  | nil =>
    intro st cur _ _ hperm d hd _ e _
    rw [hperm.symm.eq_nil] at hd
    simp at hd
  | cons x rest ih =>
    intro st cur hsorted hnd hperm d hd hdout e hein
    rw [evictLoop] at hdout hein
    by_cases hc : cur ≤ cleanupThreshold
    · rw [if_pos hc] at hdout
      exact absurd hd hdout
    · rw [if_neg hc] at hdout hein
      have hx : x ∈ st := hperm.subset (List.mem_cons_self x rest)
      have hrest : rest.Perm (st.erase x) :=
        (List.cons_perm_iff_perm_erase.mp hperm).2
      rw [deleteEntry_eq_erase st x hnd hx] at hdout hein
      by_cases hdx : d = x
      · subst hdx
        have he' : e ∈ st.erase d := evictLoop_subset rest (st.erase d) (cur - d.size) e hein
        have hemem : e ∈ rest := hrest.symm.subset he'
        exact List.rel_of_sorted_cons hsorted e hemem
      · have hd' : d ∈ st.erase x := (List.mem_erase_of_ne hdx).mpr hd
        exact ih (st.erase x) (cur - x.size) hsorted.of_cons
          (urlNodup_erase st x hnd) hrest d hd' hdout e hein

/-! ## Claim theorems -/

/-- Claim C9: `extractTurnDirection` applies its keyword rules in priority
order — u-turn phrasing first, then "turn left"/"left onto", then
"turn right"/"right onto", then "continue"/"straight", then bare "left",
then bare "right", else `straight` — and in particular maps the five
round-trip-table instruction strings of the specification accordingly. -/
theorem extractTurnDirection_priority (s : String) :
    ((strIncludes (strToLower s) "u-turn" || strIncludes (strToLower s) "make a u-turn") = true →
      extractTurnDirection s = TurnDirection.uturn)
    ∧ ((strIncludes (strToLower s) "u-turn" || strIncludes (strToLower s) "make a u-turn") = false →
        (strIncludes (strToLower s) "turn left" || strIncludes (strToLower s) "left onto") = true →
      extractTurnDirection s = TurnDirection.left)
    ∧ ((strIncludes (strToLower s) "u-turn" || strIncludes (strToLower s) "make a u-turn") = false →
        (strIncludes (strToLower s) "turn left" || strIncludes (strToLower s) "left onto") = false →
        (strIncludes (strToLower s) "turn right" || strIncludes (strToLower s) "right onto") = true →
      extractTurnDirection s = TurnDirection.right)
    ∧ ((strIncludes (strToLower s) "u-turn" || strIncludes (strToLower s) "make a u-turn") = false →
        (strIncludes (strToLower s) "turn left" || strIncludes (strToLower s) "left onto") = false →
        (strIncludes (strToLower s) "turn right" || strIncludes (strToLower s) "right onto") = false →
        (strIncludes (strToLower s) "continue" || strIncludes (strToLower s) "straight") = true →
      extractTurnDirection s = TurnDirection.straight)
    ∧ ((strIncludes (strToLower s) "u-turn" || strIncludes (strToLower s) "make a u-turn") = false →
        (strIncludes (strToLower s) "turn left" || strIncludes (strToLower s) "left onto") = false →
        (strIncludes (strToLower s) "turn right" || strIncludes (strToLower s) "right onto") = false →
        (strIncludes (strToLower s) "continue" || strIncludes (strToLower s) "straight") = false →
        strIncludes (strToLower s) "left" = true →
      extractTurnDirection s = TurnDirection.left)
    ∧ ((strIncludes (strToLower s) "u-turn" || strIncludes (strToLower s) "make a u-turn") = false →
        (strIncludes (strToLower s) "turn left" || strIncludes (strToLower s) "left onto") = false →
        (strIncludes (strToLower s) "turn right" || strIncludes (strToLower s) "right onto") = false →
        (strIncludes (strToLower s) "continue" || strIncludes (strToLower s) "straight") = false →
        strIncludes (strToLower s) "left" = false →
        strIncludes (strToLower s) "right" = true →
      extractTurnDirection s = TurnDirection.right)
    ∧ ((strIncludes (strToLower s) "u-turn" || strIncludes (strToLower s) "make a u-turn") = false →
        (strIncludes (strToLower s) "turn left" || strIncludes (strToLower s) "left onto") = false →
        (strIncludes (strToLower s) "turn right" || strIncludes (strToLower s) "right onto") = false →
        (strIncludes (strToLower s) "continue" || strIncludes (strToLower s) "straight") = false →
        strIncludes (strToLower s) "left" = false →
        strIncludes (strToLower s) "right" = false →
      extractTurnDirection s = TurnDirection.straight)
    ∧ extractTurnDirection "Turn left onto Main St" = TurnDirection.left
    ∧ extractTurnDirection "Turn right onto Elm Ave" = TurnDirection.right
    ∧ extractTurnDirection "Make a U-turn" = TurnDirection.uturn
    ∧ extractTurnDirection "Continue straight on Rt 9" = TurnDirection.straight
    ∧ extractTurnDirection "Head north on 5th" = TurnDirection.straight := by
  refine ⟨?_, ?_, ?_, ?_, ?_, ?_, ?_, by decide, by decide, by decide, by decide, by decide⟩
  · intro h0
    simp [extractTurnDirection, h0]
  · intro h0 h1
    simp [extractTurnDirection, h0, h1]
  · intro h0 h1 h2
    simp [extractTurnDirection, h0, h1, h2]
  · intro h0 h1 h2 h3
    simp [extractTurnDirection, h0, h1, h2, h3]
  · intro h0 h1 h2 h3 h4
    simp [extractTurnDirection, h0, h1, h2, h3, h4]
  · intro h0 h1 h2 h3 h4 h5
    simp [extractTurnDirection, h0, h1, h2, h3, h4, h5]
  · intro h0 h1 h2 h3 h4 h5
    simp [extractTurnDirection, h0, h1, h2, h3, h4, h5]

/-- Witness for C9: the u-turn rule fires on a concrete instruction. -/
theorem extractTurnDirection_priority_witness :
    extractTurnDirection "Make a U-turn" = TurnDirection.uturn :=
  (extractTurnDirection_priority "Make a U-turn").1 (by decide)

/-- Claim C5: `cacheImage` returns the stored handle without fetching when a
fresh (age ≤ max-age) entry exists; otherwise, if the fetch fails it returns
`null` (after one fetch); otherwise it stores the fetched bytes under the
url, runs eviction, and returns the new handle (with the stored entry
retrievable under the url before eviction runs). -/
theorem cacheImage_spec (objectUrl : Blob → String) (net : String → Option Blob)
    (now : ℤ) (st : CacheState) (url : String) :
    (∀ entry, findEntry st url = some entry → now - entry.timestamp ≤ maxAge →
      cacheImage objectUrl net now st url = (some (objectUrl entry.blob), st, 0))
    ∧ (∀ st1, getCachedImage objectUrl now st url = (none, st1) → net url = none →
      cacheImage objectUrl net now st url = (none, st1, 1))
    ∧ (∀ st1 blob, getCachedImage objectUrl now st url = (none, st1) → net url = some blob →
      cacheImage objectUrl net now st url =
        (some (objectUrl blob), cleanupCache (storeEntry st1 ⟨url, blob, now, blob.size⟩), 1)
      ∧ findEntry (storeEntry st1 ⟨url, blob, now, blob.size⟩) url =
          some ⟨url, blob, now, blob.size⟩) := by
  refine ⟨?_, ?_, ?_⟩
  · intro entry hfind hage
    have hg : getCachedImage objectUrl now st url = (some (objectUrl entry.blob), st) := by
      simp only [getCachedImage, hfind]
      rw [if_neg (not_lt.mpr hage)]
    simp [cacheImage, hg]
  · intro st1 hg hnet
    simp [cacheImage, hg, hnet]
  · intro st1 blob hg hnet
    refine ⟨by simp [cacheImage, hg, hnet], ?_⟩
    exact findEntry_storeEntry st1 ⟨url, blob, now, blob.size⟩

/-- Witness for C5: a fresh cached entry is returned without fetching. -/
theorem cacheImage_spec_witness :
    cacheImage (fun _ => "handle") (fun _ => none) 0 [⟨"u", ⟨5⟩, 0, 5⟩] "u" =
      (some "handle", [⟨"u", ⟨5⟩, 0, 5⟩], 0) :=
  (cacheImage_spec (fun _ => "handle") (fun _ => none) 0 [⟨"u", ⟨5⟩, 0, 5⟩] "u").1
    ⟨"u", ⟨5⟩, 0, 5⟩ (by decide) (by decide)

/-- Claim C8 (amended): starting from an empty store, two sequential
`cacheImage` calls on the same url perform exactly one network fetch in
total — the second call is a cache hit and fetches nothing — provided the
first call's fetch succeeds, the fetched blob fits in the cache size budget
(otherwise eviction immediately removes it again), and the second call
happens within the max-age window. -/
theorem cacheImage_idempotent (objectUrl : Blob → String) (net : String → Option Blob)
    (now1 now2 : ℤ) (url : String) (blob : Blob)
    (hnet : net url = some blob) (hsize : blob.size ≤ maxCacheSize)
    (hage : now2 - now1 ≤ maxAge) :
    cacheImage objectUrl net now1 [] url =
      (some (objectUrl blob), [⟨url, blob, now1, blob.size⟩], 1)
    ∧ cacheImage objectUrl net now2 [⟨url, blob, now1, blob.size⟩] url =
      (some (objectUrl blob), [⟨url, blob, now1, blob.size⟩], 0) := by
  constructor
  · have hclean : cleanupCache [⟨url, blob, now1, blob.size⟩] = [⟨url, blob, now1, blob.size⟩] := by
      simp only [cleanupCache, totalSize, List.map_cons, List.map_nil, List.sum_cons,
        List.sum_nil, add_zero]
      rw [if_neg (not_lt.mpr hsize)]
    simp [cacheImage, getCachedImage, findEntry, hnet, storeEntry, hclean]
  · have hfind : findEntry [⟨url, blob, now1, blob.size⟩] url =
        some ⟨url, blob, now1, blob.size⟩ := by
      simp [findEntry]
    simp only [cacheImage, getCachedImage, hfind]
    rw [if_neg (not_lt.mpr hage)]

/-- Witness for C8: the amended idempotence at a concrete url and blob. -/
theorem cacheImage_idempotent_witness :
    cacheImage (fun _ => "handle") (fun _ => some ⟨1⟩) 0 [] "u" =
      (some "handle", [⟨"u", ⟨1⟩, 0, 1⟩], 1)
    ∧ cacheImage (fun _ => "handle") (fun _ => some ⟨1⟩) 0 [⟨"u", ⟨1⟩, 0, 1⟩] "u" =
      (some "handle", [⟨"u", ⟨1⟩, 0, 1⟩], 0) :=
  cacheImage_idempotent (fun _ => "handle") (fun _ => some ⟨1⟩) 0 0 "u" ⟨1⟩
    rfl (by decide) (by decide)

/-- Claim C6: after a store, if the summed sizes exceed the budget, cleanup
deletes entries oldest-timestamp-first until the total stored size is at most
80% of the budget, retaining only entries at least as new as every deleted
one; if the total does not exceed the budget nothing is deleted.  The
`UrlNodup` hypothesis is IndexedDB's structural one-entry-per-key guarantee. -/
theorem cleanupCache_spec (st : CacheState) (hnd : UrlNodup st) :
    (totalSize st ≤ maxCacheSize → cleanupCache st = st)
    ∧ (∀ e ∈ cleanupCache st, e ∈ st)
    ∧ (maxCacheSize < totalSize st →
        totalSize (cleanupCache st) ≤ maxCacheSize * 4 / 5
        ∧ ∀ d ∈ st, d ∉ cleanupCache st →
            ∀ e ∈ cleanupCache st, d.timestamp ≤ e.timestamp) := by
  refine ⟨?_, ?_, ?_⟩
  · intro h
    rw [cleanupCache]
    exact if_neg (not_lt.mpr h)
  · intro e he
    rw [cleanupCache] at he
    by_cases hc : maxCacheSize < totalSize st
    · rw [if_pos hc] at he
      exact evictLoop_subset _ st (totalSize st) e he
    · rwa [if_neg hc] at he
  · intro h
    have hperm : (List.insertionSort entryLE st).Perm st := List.perm_insertionSort entryLE st
    have hsorted : List.Sorted entryLE (List.insertionSort entryLE st) :=
      List.sorted_insertionSort entryLE st
    constructor
    · rw [cleanupCache, if_pos h]
      exact evictLoop_totalSize _ st (totalSize st) hnd hperm rfl
    · intro d hd hdout e hein
      rw [cleanupCache, if_pos h] at hdout hein
      exact evictLoop_oldest_first _ st (totalSize st) hsorted hnd hperm d hd hdout e hein

/-- Concrete store used by the C6 witness: two 300 MB entries, 600 MB total,
over the 500 MB budget. -/
def overBudgetStore : CacheState :=
  [⟨"a", ⟨300000000⟩, 0, 300000000⟩, ⟨"b", ⟨300000000⟩, 1, 300000000⟩]

/-- Witness for C6: eviction on a concrete over-budget store. -/
theorem cleanupCache_spec_witness :
    totalSize (cleanupCache overBudgetStore) ≤ maxCacheSize * 4 / 5
    ∧ ∀ d ∈ overBudgetStore, d ∉ cleanupCache overBudgetStore →
        ∀ e ∈ cleanupCache overBudgetStore, d.timestamp ≤ e.timestamp :=
  (cleanupCache_spec overBudgetStore (by decide)).2.2 (by decide)

/-- Counterexample to C8 as stated: for a fetched blob larger than the whole
cache budget the first (successful) call's eviction immediately deletes the
stored entry, so the second call fetches again — two fetches in total, not
one. -/
theorem cacheImage_idempotent_counterexample :
    (cacheImage (fun _ => "handle") (fun _ => some ⟨524288001⟩) 0 [] "u").1 = some "handle"
    ∧ (cacheImage (fun _ => "handle") (fun _ => some ⟨524288001⟩) 0 [] "u").2.2 +
        (cacheImage (fun _ => "handle") (fun _ => some ⟨524288001⟩) 0
          (cacheImage (fun _ => "handle") (fun _ => some ⟨524288001⟩) 0 [] "u").2.1
          "u").2.2 = 2 := by
  decide

/-- The percentages reported by the batch loop: with `cached + failed`
completions already counted, processing `urls` reports
`(cached + failed + j + 1) / total * 100` at the `j`-th completion. -/
lemma cacheImagesLoop_percentages (objectUrl : Blob → String) (net : String → Option Blob)
    (now : ℤ) (total : ℕ) :
    ∀ (urls : List String) (st : CacheState) (cached failed : ℕ),
      ((cacheImagesLoop objectUrl net now total st cached failed urls).2.2).map
          (fun p => p.percentage) =
        (List.range urls.length).map
          (fun j => ((cached + failed + j + 1 : ℕ) : ℚ) / total * 100) := by
  intro urls
  induction urls with
  | nil => intro st cached failed; simp [cacheImagesLoop]
  | cons url rest ih =>
    intro st cached failed
    rcases hc : cacheImage objectUrl net now st url with ⟨res, st1, k⟩
    rcases res with _ | cachedUrl
    · simp only [cacheImagesLoop, hc, List.map_cons, List.length_cons,
        List.range_succ_eq_map, List.map_map]
      refine List.cons_eq_cons.mpr ⟨by push_cast; ring_nf, ?_⟩
      rw [ih st1 cached (failed + 1)]
      refine List.map_congr_left (fun j _ => ?_)
      simp only [Function.comp]
      push_cast
      ring_nf
    · simp only [cacheImagesLoop, hc, List.map_cons, List.length_cons,
        List.range_succ_eq_map, List.map_map]
      refine List.cons_eq_cons.mpr ⟨by push_cast; ring_nf, ?_⟩
      rw [ih st1 (cached + 1) failed]
      refine List.map_congr_left (fun j _ => ?_)
      simp only [Function.comp]
      push_cast
      ring_nf

/-- Claim C7: over a non-empty url list, `cacheImages` reports progress once
per url completion; the `j`-th reported percentage is `(j+1)/total * 100`, so
the reported percentages are non-decreasing and the final one is exactly
100. -/
theorem cacheImages_progress (objectUrl : Blob → String) (net : String → Option Blob)
    (now : ℤ) (st : CacheState) (urls : List String) (h : urls ≠ []) :
    ((cacheImages objectUrl net now st urls).2.2).length = urls.length
    ∧ ((cacheImages objectUrl net now st urls).2.2).map (fun p => p.percentage) =
        (List.range urls.length).map (fun j => ((j + 1 : ℕ) : ℚ) / urls.length * 100)
    ∧ List.Chain' (fun p q => p.percentage ≤ q.percentage)
        ((cacheImages objectUrl net now st urls).2.2)
    ∧ (((cacheImages objectUrl net now st urls).2.2).getLast?).map (fun p => p.percentage) =
        some 100 := by
  have hmap : ((cacheImages objectUrl net now st urls).2.2).map (fun p => p.percentage) =
      (List.range urls.length).map (fun j => ((j + 1 : ℕ) : ℚ) / urls.length * 100) := by
    rw [cacheImages, cacheImagesLoop_percentages]
    exact List.map_congr_left (fun j _ => by push_cast; ring_nf)
  have hlen : ((cacheImages objectUrl net now st urls).2.2).length = urls.length := by
    have := congrArg List.length hmap
    simpa using this
  obtain ⟨n, hn⟩ : ∃ n, urls.length = n + 1 := by
    cases urls with
    | nil => exact absurd rfl h
    | cons a tl => exact ⟨tl.length, rfl⟩
  have hpos : (0 : ℚ) < (urls.length : ℚ) := by
    rw [hn]; push_cast; positivity
  refine ⟨hlen, hmap, ?_, ?_⟩
  · have hchain : List.Chain' (fun a b : ℚ => a ≤ b)
        (((cacheImages objectUrl net now st urls).2.2).map (fun p => p.percentage)) := by
      rw [hmap]
      refine (List.chain'_map _).mpr ?_
      rw [hn]
      refine (List.chain'_range_succ _ n).mpr (fun m _ => ?_)
      gcongr
      linarith
    exact (List.chain'_map _).mp hchain
  · rw [← List.getLast?_map, hmap, hn, List.range_succ, List.map_append]
    simp only [List.map_cons, List.map_nil]
    rw [List.getLast?_concat]
    congr 1
    push_cast
    rw [div_self (by positivity), one_mul]

/-- Witness for C7: a concrete singleton batch whose one url fails reports a
single 100% snapshot. -/
theorem cacheImages_progress_witness :
    (((cacheImages (fun _ => "") (fun _ => none) 0 [] ["u"]).2.2).getLast?).map
        (fun p => p.percentage) = some 100 :=
  (cacheImages_progress (fun _ => "") (fun _ => none) 0 [] ["u"] (by decide)).2.2.2

/-- Claim C10: `generateStreetViewFramesWithCache` returns frames of the same
length and order as `generateStreetViewFrames`, preserving every frame's
location, heading, pitch, timestamp, isNearTurn, turnDirection and
turnInstruction; only `imageUrl` and `isCached` may change. -/
theorem framesWithCache_preserves (numToString : ℝ → String) (apiKey : String)
    (objectUrl : Blob → String) (net : String → Option Blob) (now : ℤ)
    (st : CacheState) (route : Route) (intervalMeters : ℝ) :
    ((generateStreetViewFramesWithCache numToString apiKey objectUrl net now st
        route intervalMeters).1).length =
      (generateStreetViewFrames numToString apiKey route intervalMeters).length
    ∧ ((generateStreetViewFramesWithCache numToString apiKey objectUrl net now st
        route intervalMeters).1).map (fun f => f.location) =
      (generateStreetViewFrames numToString apiKey route intervalMeters).map
        (fun f => f.location)
    ∧ ((generateStreetViewFramesWithCache numToString apiKey objectUrl net now st
        route intervalMeters).1).map (fun f => f.heading) =
      (generateStreetViewFrames numToString apiKey route intervalMeters).map
        (fun f => f.heading)
    ∧ ((generateStreetViewFramesWithCache numToString apiKey objectUrl net now st
        route intervalMeters).1).map (fun f => f.pitch) =
      (generateStreetViewFrames numToString apiKey route intervalMeters).map
        (fun f => f.pitch)
    ∧ ((generateStreetViewFramesWithCache numToString apiKey objectUrl net now st
        route intervalMeters).1).map (fun f => f.timestamp) =
      (generateStreetViewFrames numToString apiKey route intervalMeters).map
        (fun f => f.timestamp)
    ∧ ((generateStreetViewFramesWithCache numToString apiKey objectUrl net now st
        route intervalMeters).1).map (fun f => f.isNearTurn) =
      (generateStreetViewFrames numToString apiKey route intervalMeters).map
        (fun f => f.isNearTurn)
    ∧ ((generateStreetViewFramesWithCache numToString apiKey objectUrl net now st
        route intervalMeters).1).map (fun f => f.turnDirection) =
      (generateStreetViewFrames numToString apiKey route intervalMeters).map
        (fun f => f.turnDirection)
    ∧ ((generateStreetViewFramesWithCache numToString apiKey objectUrl net now st
        route intervalMeters).1).map (fun f => f.turnInstruction) =
      (generateStreetViewFrames numToString apiKey route intervalMeters).map
        (fun f => f.turnInstruction) := by
  by_cases hl : (generateStreetViewFrames numToString apiKey route intervalMeters).length = 0
  · simp [generateStreetViewFramesWithCache, hl]
  · refine ⟨?_, ?_, ?_, ?_, ?_, ?_, ?_, ?_⟩ <;>
      simp [generateStreetViewFramesWithCache, hl, List.map_map, Function.comp]

/-- A route with an empty path and no steps (degenerate input). -/
def routeEmptyPath : Route := ⟨⟨0, 0⟩, ⟨0, 0⟩, [], 0, 0, []⟩

/-- A route with no steps whose path is the single point `(0, 0)`. -/
def routeOnePoint : Route := ⟨⟨0, 0⟩, ⟨0, 0⟩, [], 0, 0, [⟨0, 0⟩]⟩

/-- Claim C1 (amended): for every route whose path (`encodedPath`) is empty,
`interpolateRoutePoints` yields zero sampled points and
`generateStreetViewFrames` returns an empty frame sequence rather than
failing.  (A route with zero steps but a non-empty path still yields sampled
points — see the counterexample.) -/
theorem emptyPath_no_frames (route : Route) (intervalMeters : ℝ)
    (h : route.encodedPath = []) :
    interpolateRoutePoints route intervalMeters = []
    ∧ ∀ (numToString : ℝ → String) (apiKey : String),
        generateStreetViewFrames numToString apiKey route intervalMeters = [] := by
  have h1 : interpolateRoutePoints route intervalMeters = [] := by
    unfold interpolateRoutePoints
    rw [h]
  refine ⟨h1, fun numToString apiKey => ?_⟩
  unfold generateStreetViewFrames
  rw [h1]
  rfl

/-- Witness for C1 (amended): the degenerate empty-path route. -/
theorem emptyPath_no_frames_witness :
    interpolateRoutePoints routeEmptyPath 100 = []
    ∧ ∀ (numToString : ℝ → String) (apiKey : String),
        generateStreetViewFrames numToString apiKey routeEmptyPath 100 = [] :=
  emptyPath_no_frames routeEmptyPath 100 rfl

/-- Counterexample to C1 as stated: a route with zero steps but a one-point
path yields two sampled points (the first point, plus the final point which
is always pushed) and one deduplicated frame — not zero of each. -/
theorem zeroSteps_counterexample :
    routeOnePoint.steps = []
    ∧ (interpolateRoutePoints routeOnePoint 100).length = 2
    ∧ (generateStreetViewFrames (fun _ => "") "" routeOnePoint 100).length = 1 := by
  have hpts : interpolateRoutePoints routeOnePoint 100 = [⟨0, 0⟩, ⟨0, 0⟩] := by
    unfold interpolateRoutePoints routeOnePoint
    simp [interpolateLoop]
  refine ⟨rfl, by rw [hpts]; rfl, ?_⟩
  unfold generateStreetViewFrames
  rw [hpts]
  simp only [framesLoop]
  rw [if_neg (List.not_mem_nil _), if_pos (List.mem_singleton_self _)]
  rfl

/-- Claim C2: for every route with a non-empty path, the sampled-point
sequence starts with the first path coordinate and ends with the last path
coordinate. -/
theorem sampler_first_last (route : Route) (intervalMeters : ℝ)
    (h : route.encodedPath ≠ []) :
    (interpolateRoutePoints route intervalMeters).head? = route.encodedPath.head?
    ∧ (interpolateRoutePoints route intervalMeters).getLast? =
        route.encodedPath.getLast? := by
  rcases hp : route.encodedPath with _ | ⟨p, rest⟩
  · exact absurd hp h
  · constructor
    · simp [interpolateRoutePoints, hp]
    · simp only [interpolateRoutePoints, hp]
      rw [List.getLast?_concat]
      exact (List.getLast?_eq_getLast (p :: rest) (List.cons_ne_nil _ _)).symm

/-- Witness for C2: the one-point route. -/
theorem sampler_first_last_witness :
    (interpolateRoutePoints routeOnePoint 100).head? = routeOnePoint.encodedPath.head?
    ∧ (interpolateRoutePoints routeOnePoint 100).getLast? =
        routeOnePoint.encodedPath.getLast? :=
  sampler_first_last routeOnePoint 100 (by simp [routeOnePoint])

/-- Every frame the frame-building loop emits has a quantised location key
outside `seen`, and the emitted keys are pairwise distinct. -/
lemma framesLoop_keys (numToString : ℝ → String) (apiKey : String)
    (steps : List RouteStep) :
    ∀ (pts : List Location) (seen : List (ℤ × ℤ)) (i : ℕ),
      (∀ f ∈ framesLoop numToString apiKey steps seen i pts,
          locationKey f.location ∉ seen)
      ∧ (framesLoop numToString apiKey steps seen i pts).Pairwise
          (fun f g => locationKey f.location ≠ locationKey g.location) := by
  intro pts
  induction pts with
  | nil => intro seen i; simp [framesLoop]
  | cons p rest ih =>
    intro seen i
    by_cases hk : locationKey p ∈ seen
    · constructor
      · intro f hf
        simp only [framesLoop, if_pos hk] at hf
        exact (ih seen (i + 1)).1 f hf
      · simp only [framesLoop, if_pos hk]
        exact (ih seen (i + 1)).2
    · have htail := ih (locationKey p :: seen) (i + 1)
      constructor
      · intro f hf
        simp only [framesLoop, if_neg hk] at hf
        rcases List.mem_cons.mp hf with hfe | hft
        · rw [hfe]
          exact hk
        · exact List.not_mem_of_not_mem_cons (htail.1 f hft)
      · simp only [framesLoop, if_neg hk]
        rw [List.pairwise_cons]
        refine ⟨fun g hg => ?_, htail.2⟩
        have hne : locationKey g.location ∉ locationKey p :: seen := htail.1 g hg
        exact fun heq => hne (heq ▸ List.mem_cons_self _ _)

/-- Claim C3 (amended): consecutive frames emitted by
`generateStreetViewFrames` always have distinct quantised location keys, and
hence distinct location coordinates.  (The further consequence claimed —
strictly positive great-circle distance — fails at degenerate coordinates;
see the counterexample.) -/
theorem consecutiveFrames_distinct_keys (numToString : ℝ → String) (apiKey : String)
    (route : Route) (intervalMeters : ℝ) :
    List.Chain'
      (fun f g => locationKey f.location ≠ locationKey g.location
        ∧ f.location ≠ g.location)
      (generateStreetViewFrames numToString apiKey route intervalMeters) := by
  have h := (framesLoop_keys numToString apiKey route.steps
      (interpolateRoutePoints route intervalMeters) [] 0).2
  exact h.chain'.imp (fun a b hab => ⟨hab, fun hl => hab (by rw [hl])⟩)

/-- Two points on the equator separated by 360 degrees of longitude have
haversine distance zero: `dLng/2 = π`, whose sine vanishes. -/
lemma calculateDistance_antimeridian : calculateDistance ⟨0, 0⟩ ⟨0, 360⟩ = 0 := by
  simp only [calculateDistance, jsAtan2]
  rw [show ((360 : ℝ) - 0) * Real.pi / 180 / 2 = Real.pi by ring]
  rw [show ((0 : ℝ) - 0) * Real.pi / 180 / 2 = 0 by ring]
  rw [show (0 : ℝ) * Real.pi / 180 = 0 by ring]
  rw [Real.sin_zero, Real.cos_zero, Real.sin_pi]
  norm_num

/-- On the equator, for a longitude difference below a quarter turn, the
haversine distance reduces to arc length: radius times `dLng` in radians. -/
lemma calculateDistance_equator (l1 l2 : ℝ)
    (h0 : 0 ≤ (l2 - l1) * Real.pi / 360) (h1 : (l2 - l1) * Real.pi / 360 < Real.pi / 2) :
    calculateDistance ⟨0, l1⟩ ⟨0, l2⟩ = 6371000 * ((l2 - l1) * Real.pi / 180) := by
  set θ := (l2 - l1) * Real.pi / 360 with hθdef
  have hsin : 0 ≤ Real.sin θ :=
    Real.sin_nonneg_of_nonneg_of_le_pi h0 (by linarith [Real.pi_pos])
  have hcos : 0 < Real.cos θ :=
    Real.cos_pos_of_mem_Ioo ⟨by linarith [Real.pi_pos], h1⟩
  have hs1 : Real.sqrt (Real.sin θ * Real.sin θ) = Real.sin θ := Real.sqrt_mul_self hsin
  have hc : 1 - Real.sin θ * Real.sin θ = Real.cos θ * Real.cos θ := by
    nlinarith [Real.sin_sq_add_cos_sq θ]
  have hs2 : Real.sqrt (1 - Real.sin θ * Real.sin θ) = Real.cos θ := by
    rw [hc]; exact Real.sqrt_mul_self (le_of_lt hcos)
  simp only [calculateDistance, jsAtan2]
  rw [show ((0 : ℝ) - 0) * Real.pi / 180 / 2 = 0 by ring]
  rw [show (0 : ℝ) * Real.pi / 180 = 0 by ring]
  rw [Real.sin_zero, Real.cos_zero]
  rw [show (l2 - l1) * Real.pi / 180 / 2 = θ by rw [hθdef]; ring]
  rw [show (0 : ℝ) * 0 + 1 * 1 * Real.sin θ * Real.sin θ = Real.sin θ * Real.sin θ by ring]
  rw [hs1, hs2, if_pos hcos]
  rw [← Real.tan_eq_sin_div_cos, Real.arctan_tan (by linarith [Real.pi_pos]) h1]
  rw [hθdef]
  ring

/-- The first path segment of the C4 scenario is one equatorial millidegree,
about 111.19 m. -/
lemma dist_segment1 : calculateDistance ⟨0, 0⟩ ⟨0, 0.001⟩ = 6371000 * (0.001 * Real.pi / 180) := by
  have h := calculateDistance_equator 0 0.001
    (by linarith [Real.pi_pos]) (by linarith [Real.pi_pos])
  rw [h]
  norm_num

/-- The second path segment of the C4 scenario, same length as the first. -/
lemma dist_segment2 : calculateDistance ⟨0, 0.001⟩ ⟨0, 0.002⟩ =
    6371000 * (0.001 * Real.pi / 180) := by
  have h := calculateDistance_equator 0.001 0.002
    (by linarith [Real.pi_pos]) (by linarith [Real.pi_pos])
  rw [h]
  norm_num

/-- The end-to-end scenario route of the specification: an equatorial path of
three points one millidegree apart, with no maneuver steps. -/
def routeStraight : Route := ⟨⟨0, 0⟩, ⟨0, 0.002⟩, [], 0, 0, [⟨0, 0⟩, ⟨0, 0.001⟩, ⟨0, 0.002⟩]⟩

/-- With no steps the sparse interval `100 * 5` is in effect, the ≈222 m of
accumulated distance never reaches it, and only the first and last path
points are sampled. -/
lemma routeStraight_points :
    interpolateRoutePoints routeStraight 100 = [⟨0, 0⟩, ⟨0, 0.002⟩] := by
  have hb1 : ¬ ((100 : ℝ) * 5 ≤ 0 + 6371000 * (0.001 * Real.pi / 180)) := by
    push_neg
    linarith [Real.pi_lt_d2, Real.pi_pos]
  have hb2 : ¬ ((100 : ℝ) * 5 ≤
      0 + 6371000 * (0.001 * Real.pi / 180) + 6371000 * (0.001 * Real.pi / 180)) := by
    push_neg
    linarith [Real.pi_lt_d2, Real.pi_pos]
  unfold interpolateRoutePoints routeStraight
  simp only [interpolateLoop, isNearTurnInstruction, List.any_nil, Bool.false_eq_true,
    if_false, dist_segment1, dist_segment2, hb1, hb2]
  rfl

/-- Quantised key of the origin. -/
lemma key_origin : locationKey ⟨0, 0⟩ = (0, 0) := by
  have h : ⌊(0 : ℝ) * 10000 + 1 / 2⌋ = 0 := by
    rw [show (0 : ℝ) * 10000 + 1 / 2 = 1 / 2 by norm_num]
    exact Int.floor_eq_iff.mpr ⟨by norm_num, by norm_num⟩
  unfold locationKey
  rw [h]

/-- Quantised key of the C4 route's endpoint. -/
lemma key_twoMilli : locationKey ⟨0, 0.002⟩ = (0, 20) := by
  have h : ⌊(0 : ℝ) * 10000 + 1 / 2⌋ = 0 := by
    rw [show (0 : ℝ) * 10000 + 1 / 2 = 1 / 2 by norm_num]
    exact Int.floor_eq_iff.mpr ⟨by norm_num, by norm_num⟩
  have h2 : ⌊(0.002 : ℝ) * 10000 + 1 / 2⌋ = 20 := by
    rw [show (0.002 : ℝ) * 10000 + 1 / 2 = 41 / 2 by norm_num]
    exact Int.floor_eq_iff.mpr ⟨by norm_num, by norm_num⟩
  unfold locationKey
  rw [h, h2]

/-- Claim C4: on the concrete route with path
`[(0,0), (0,0.001), (0,0.002)]` and no maneuver steps, with base interval
100 m and sparse factor 5 (effective interval 500 m), the pipeline emits
exactly 2 frames: the first and the last path points. -/
theorem endToEnd_two_frames (numToString : ℝ → String) (apiKey : String) :
    (generateStreetViewFrames numToString apiKey routeStraight 100).map
        (fun f => f.location) = [⟨0, 0⟩, ⟨0, 0.002⟩]
    ∧ (generateStreetViewFrames numToString apiKey routeStraight 100).length = 2 := by
  have hkey : locationKey ⟨0, 0.002⟩ ∉ [locationKey ⟨0, 0⟩] := by
    rw [key_origin, key_twoMilli]
    decide
  unfold generateStreetViewFrames
  rw [routeStraight_points]
  simp only [framesLoop]
  rw [if_neg (List.not_mem_nil _), if_neg hkey]
  exact ⟨rfl, rfl⟩

/-- Degenerate route used to refute the distance-positivity part of C3: two
path points 360 degrees of longitude apart, zero metres of haversine
distance but distinct quantised keys. -/
def routeAntimeridian : Route := ⟨⟨0, 0⟩, ⟨0, 360⟩, [], 0, 0, [⟨0, 0⟩, ⟨0, 360⟩]⟩

/-- Quantised key of the antimeridian route's endpoint. -/
lemma key_wrap : locationKey ⟨0, 360⟩ = (0, 3600000) := by
  have h : ⌊(0 : ℝ) * 10000 + 1 / 2⌋ = 0 := by
    rw [show (0 : ℝ) * 10000 + 1 / 2 = 1 / 2 by norm_num]
    exact Int.floor_eq_iff.mpr ⟨by norm_num, by norm_num⟩
  have h2 : ⌊(360 : ℝ) * 10000 + 1 / 2⌋ = 3600000 := by
    rw [show (360 : ℝ) * 10000 + 1 / 2 = 7200001 / 2 by norm_num]
    exact Int.floor_eq_iff.mpr ⟨by norm_num, by norm_num⟩
  unfold locationKey
  rw [h, h2]

/-- Both antimeridian points are sampled (their segment accumulates zero
distance, below the sparse interval, and the last point is always pushed). -/
lemma routeAntimeridian_points :
    interpolateRoutePoints routeAntimeridian 100 = [⟨0, 0⟩, ⟨0, 360⟩] := by
  have hb : ¬ ((100 : ℝ) * 5 ≤ 0 + 0) := by norm_num
  unfold interpolateRoutePoints routeAntimeridian
  simp only [interpolateLoop, isNearTurnInstruction, List.any_nil, Bool.false_eq_true,
    if_false, calculateDistance_antimeridian, hb]
  rfl

/-- Counterexample to C3 as stated: on `routeAntimeridian` the two emitted
consecutive frames have distinct quantised keys, yet the great-circle
distance between their locations is zero, not strictly positive. -/
theorem consecutive_distance_counterexample :
    ¬ List.Chain' (fun f g => 0 < calculateDistance f.location g.location)
      (generateStreetViewFrames (fun _ => "") "" routeAntimeridian 100) := by
  have hkey : locationKey ⟨0, 360⟩ ∉ [locationKey ⟨0, 0⟩] := by
    rw [key_origin, key_wrap]
    decide
  unfold generateStreetViewFrames
  rw [routeAntimeridian_points]
  simp only [framesLoop]
  rw [if_neg (List.not_mem_nil _), if_neg hkey]
  simp only [List.chain'_cons, List.chain'_singleton, and_true]
  rw [calculateDistance_antimeridian]
  exact lt_irrefl 0

end VideoView
